import Mathlib

/-!
Verification of the natural-language specification of the rustls bogo test
shim and `Stream` transport adapter against a shallow embedding of the code.

Part 1: client credential resolution (`MultipleClientCredentialResolver` in
`bogo/src/main.rs`).
-/

set_option linter.unusedVariables false

/-- A TLS signature scheme, identified by its 16-bit code point. -/
abbrev SigScheme := Nat

/-- A distinguished name, as an opaque byte sequence. -/
abbrev Dn := List Nat

/-- Model of a `sign::SigningKey`: the set of signature schemes it can sign
with.  `choose_scheme` succeeds on the first offered scheme the key supports,
matching the behaviour of concrete rustls signing keys (and of the
`FixedSignatureSchemeSigningKey` wrapper, whose supported set is a singleton
intersection). -/
structure SigningKey where
  supported : List SigScheme
deriving Repr, DecidableEq

/-- `SigningKey::choose_scheme`: first offered scheme the key supports. -/
def chooseScheme (k : SigningKey) (offered : List SigScheme) : Option SigScheme :=
  offered.find? (fun s => k.supported.contains s)

/-- `ClientCert` from `bogo/src/main.rs`: a certified key plus the issuer DN
parsed from its certificate chain and the per-credential
`must_match_issuer` flag. -/
structure ClientCert where
  key : SigningKey
  issuer_dn : Dn
  must_match_issuer : Bool
deriving Repr, DecidableEq

/-- `MultipleClientCredentialResolver`: additional (possibly
issuer-constrained) credentials plus an optional default credential. -/
structure MultipleClientCredentialResolver where
  additional : List ClientCert
  default : Option ClientCert
deriving Repr, DecidableEq

/-- Outcome of `MultipleClientCredentialResolver::resolve`: either a selected
credential, or one of the two failure strings passed to `quit`. -/
inductive ResolveOutcome where
  | selected (cert : ClientCert)
  | noMatchingIssuer
  | noCommonSignatureAlgorithms
deriving Repr, DecidableEq

/-- The issuer-hint guard in `resolve`: a credential is skipped iff it has
`must_match_issuer` set and its issuer DN is not among the server's
`root_hint_subjects`. -/
def issuerPermits (root_hint_subjects : List Dn) (cert : ClientCert) : Bool :=
  !cert.must_match_issuer || root_hint_subjects.contains cert.issuer_dn

/-- The failure tail of `resolve`: if every configured credential (additional
credentials chained with the default) has `must_match_issuer` set, quit with
`:NO_MATCHING_ISSUER:`, otherwise with `:NO_COMMON_SIGNATURE_ALGORITHMS:`. -/
def resolveFailure (r : MultipleClientCredentialResolver) : ResolveOutcome :=
  if (r.additional ++ r.default.toList).all (fun item => item.must_match_issuer) then
    ResolveOutcome.noMatchingIssuer
  else
    ResolveOutcome.noCommonSignatureAlgorithms

/-- `MultipleClientCredentialResolver::resolve` from `bogo/src/main.rs`:
iterate `sig_schemes` (server preference order); for each scheme scan the
additional credentials, skipping those whose issuer constraint fails, and
return the first that can sign with that single scheme.  Only then consult
the default credential, checked against the whole scheme list.  Otherwise
fail with one of the two quit strings. -/
def resolve (r : MultipleClientCredentialResolver) (root_hint_subjects : List Dn)
    (sig_schemes : List SigScheme) : ResolveOutcome :=
  match sig_schemes.findSome? (fun s =>
      r.additional.find? (fun cert =>
        issuerPermits root_hint_subjects cert && (chooseScheme cert.key [s]).isSome)) with
  | some cert => ResolveOutcome.selected cert
  | none =>
    match r.default with
    | some cert =>
      if (chooseScheme cert.key sig_schemes).isSome then ResolveOutcome.selected cert
      else resolveFailure r
    | none => resolveFailure r

/-- Restatement of the claimed selection order, written from the spec's words:
scan the additional credentials in order and select the first that passes its
issuer constraint and can sign with the current scheme. -/
def claimFirstAdditional (root_hint_subjects : List Dn) (s : SigScheme) :
    List ClientCert → Option ClientCert
  | [] => none
  | cert :: rest =>
    if issuerPermits root_hint_subjects cert && cert.key.supported.contains s then some cert
    else claimFirstAdditional root_hint_subjects s rest

/-- Restatement of the claimed scheme iteration, written from the spec's
words: walk the peer's advertised schemes in the peer's preference order,
and pick the first additional credential matching the current scheme. -/
def claimSchemeLoop (r : MultipleClientCredentialResolver) (root_hint_subjects : List Dn) :
    List SigScheme → Option ClientCert
  | [] => none
  | s :: rest =>
    match claimFirstAdditional root_hint_subjects s r.additional with
    | some cert => some cert
    | none => claimSchemeLoop r root_hint_subjects rest

/-- Restatement of the claimed overall resolution, written from the spec's
words: every additional credential is tried (scheme-major, in the peer's
preference order) before the default; the default is selected only when no
additional credential matched and its supported set intersects the whole
advertised scheme set; on failure the category is `noMatchingIssuer` exactly
when every configured credential is issuer-constrained. -/
def resolveClaim (r : MultipleClientCredentialResolver) (root_hint_subjects : List Dn)
    (sig_schemes : List SigScheme) : ResolveOutcome :=
  match claimSchemeLoop r root_hint_subjects sig_schemes with
  | some cert => ResolveOutcome.selected cert
  | none =>
    match r.default with
    | some cert =>
      if sig_schemes.any (fun s => cert.key.supported.contains s) then
        ResolveOutcome.selected cert
      else if r.additional.all (fun c => c.must_match_issuer)
              && r.default.all (fun c => c.must_match_issuer) then
        ResolveOutcome.noMatchingIssuer
      else
        ResolveOutcome.noCommonSignatureAlgorithms
    | none =>
      if r.additional.all (fun c => c.must_match_issuer)
          && r.default.all (fun c => c.must_match_issuer) then
        ResolveOutcome.noMatchingIssuer
      else
        ResolveOutcome.noCommonSignatureAlgorithms

theorem chooseScheme_singleton_isSome (k : SigningKey) (s : SigScheme) :
    (chooseScheme k [s]).isSome = k.supported.contains s := by
  by_cases h : s ∈ k.supported <;> simp [chooseScheme, List.find?, h]

theorem chooseScheme_isSome_eq_any (k : SigningKey) (schemes : List SigScheme) :
    (chooseScheme k schemes).isSome = schemes.any (fun s => k.supported.contains s) := by
  induction schemes with
  | nil => rfl
  | cons s rest ih =>
    rw [List.any_cons]
    cases h : k.supported.contains s with
    | true =>
      rw [chooseScheme, List.find?_cons_of_pos _ h, Bool.true_or]
      rfl
    | false =>
      rw [chooseScheme, List.find?_cons_of_neg _ (by simp only [h]; exact Bool.false_ne_true),
        Bool.false_or]
      exact ih

theorem find?_eq_claimFirstAdditional (hints : List Dn) (s : SigScheme)
    (certs : List ClientCert) :
    certs.find? (fun cert =>
        issuerPermits hints cert && (chooseScheme cert.key [s]).isSome)
      = claimFirstAdditional hints s certs := by
  induction certs with
  | nil => rfl
  | cons cert rest ih =>
    rw [claimFirstAdditional]
    by_cases h : (issuerPermits hints cert && cert.key.supported.contains s) = true
    · rw [if_pos h]
      exact List.find?_cons_of_pos _ (by rw [chooseScheme_singleton_isSome]; exact h)
    · rw [if_neg h, ← ih]
      exact List.find?_cons_of_neg _ (by rw [chooseScheme_singleton_isSome]; exact h)

theorem findSome?_eq_claimSchemeLoop (r : MultipleClientCredentialResolver)
    (hints : List Dn) (schemes : List SigScheme) :
    schemes.findSome? (fun s =>
        r.additional.find? (fun cert =>
          issuerPermits hints cert && (chooseScheme cert.key [s]).isSome))
      = claimSchemeLoop r hints schemes := by
  induction schemes with
  | nil => rfl
  | cons s rest ih =>
    rw [claimSchemeLoop]
    cases h : claimFirstAdditional hints s r.additional with
    | some cert =>
      rw [List.findSome?_cons_of_isSome]
      · rw [find?_eq_claimFirstAdditional, h]
      · rw [find?_eq_claimFirstAdditional, h]
        rfl
    | none =>
      rw [List.findSome?_cons_of_isNone]
      · exact ih
      · rw [find?_eq_claimFirstAdditional, h]
        rfl

theorem resolveFailure_eq_claim (r : MultipleClientCredentialResolver) :
    resolveFailure r =
      (if r.additional.all (fun c => c.must_match_issuer)
          && r.default.all (fun c => c.must_match_issuer) then
        ResolveOutcome.noMatchingIssuer
      else
        ResolveOutcome.noCommonSignatureAlgorithms) := by
  have hopt : r.default.toList.all (fun c => c.must_match_issuer)
      = r.default.all (fun c => c.must_match_issuer) := by
    cases r.default <;> simp [Option.toList, Option.all]
  simp [resolveFailure, List.all_append, hopt]

/-- C1: client credential resolution tries every additional
(issuer-constrained) credential before the default credential, iterating over
the peer's advertised signature schemes in the peer's preference order: the
first additional credential that both passes its `must_match_issuer`
constraint and can sign with the current scheme is selected; the default
credential is consulted only after no additional credential matched, and it
is checked by intersection with the whole scheme set.  Formally, the code's
`resolve` coincides with `resolveClaim`, the direct transcription of the
claimed order. -/
theorem resolve_matches_claimed_order (r : MultipleClientCredentialResolver)
    (root_hint_subjects : List Dn) (sig_schemes : List SigScheme) :
    resolve r root_hint_subjects sig_schemes
      = resolveClaim r root_hint_subjects sig_schemes := by
  unfold resolve resolveClaim
  rw [findSome?_eq_claimSchemeLoop]
  cases claimSchemeLoop r root_hint_subjects sig_schemes with
  | some cert => rfl
  | none =>
    cases hd : r.default with
    | none => simp [resolveFailure_eq_claim, hd]
    | some cert =>
      simp only [chooseScheme_isSome_eq_any]
      cases h : sig_schemes.any (fun s => cert.key.supported.contains s) with
      | true => simp [h]
      | false => simp [h, resolveFailure_eq_claim, hd]

/-- C2: whenever credential resolution fails, the failure category is
`:NO_MATCHING_ISSUER:` exactly when every configured credential (additional
and default) has `must_match_issuer` set; otherwise it is
`:NO_COMMON_SIGNATURE_ALGORITHMS:`. -/
theorem resolve_failure_category (r : MultipleClientCredentialResolver)
    (root_hint_subjects : List Dn) (sig_schemes : List SigScheme)
    (h : resolve r root_hint_subjects sig_schemes = ResolveOutcome.noMatchingIssuer
       ∨ resolve r root_hint_subjects sig_schemes = ResolveOutcome.noCommonSignatureAlgorithms) :
    (resolve r root_hint_subjects sig_schemes = ResolveOutcome.noMatchingIssuer
      ↔ (r.additional ++ r.default.toList).all (fun c => c.must_match_issuer) = true) := by
  have hfail : resolve r root_hint_subjects sig_schemes = resolveFailure r := by
    unfold resolve at *
    cases hf : sig_schemes.findSome? (fun s =>
        r.additional.find? (fun cert =>
          issuerPermits root_hint_subjects cert && (chooseScheme cert.key [s]).isSome)) with
    | some cert => simp [hf] at h
    | none =>
      simp only [hf] at h ⊢
      cases hd : r.default with
      | none => simp
      | some cert =>
        simp only [hd] at h ⊢
        cases hcs : (chooseScheme cert.key sig_schemes).isSome with
        | true => simp [hcs] at h
        | false => simp [hcs]
  rw [hfail]
  unfold resolveFailure
  cases hall : (r.additional ++ r.default.toList).all (fun c => c.must_match_issuer) <;>
    simp [hall]

/-- Witness for C2, realising the spec's scenario: a single
`must_match_issuer = true` credential (an RSA key supporting the usual RSA
schemes) offered against issuer hints listing only an unrelated issuer fails
with `:NO_MATCHING_ISSUER:`, not `:NO_COMMON_SIGNATURE_ALGORITHMS:`. -/
theorem resolve_failure_category_witness :
    resolve
        { additional := [{ key := { supported := [0x0804, 0x0401] },
                           issuer_dn := [1, 1, 1],
                           must_match_issuer := true }],
          default := none }
        [[2, 2, 2]] [0x0804, 0x0401] = ResolveOutcome.noMatchingIssuer := by
  have h := resolve_failure_category
    { additional := [{ key := { supported := [0x0804, 0x0401] },
                       issuer_dn := [1, 1, 1],
                       must_match_issuer := true }],
      default := none }
    [[2, 2, 2]] [0x0804, 0x0401] (Or.inl (by decide))
  exact h.mpr (by decide)

/-!
Part 2: the Codec contract (spec section 4.1).  The codec itself is not
among the provided source files, so it is modelled from the spec: explicit
length prefixes, `Truncated` distinguished from `Malformed` and
`TrailingData`, and a lossless round-trip.
-/

/-- Codec error taxonomy from the spec contract
`decode(bytes) -> Struct | Error(Truncated|Malformed|TrailingData)`. -/
inductive DecodeError where
  | truncated
  | malformed
  | trailingData
deriving Repr, DecidableEq

/-- A TLS record: 1-byte content type, 2-byte protocol version, 2-byte
length prefix, payload. -/
structure TlsRecord where
  contentType : Nat
  versionMajor : Nat
  versionMinor : Nat
  payload : List Nat
deriving Repr, DecidableEq

/-- Maximum ciphertext record payload per the spec wire format
(2^14 + 256 bytes). -/
def MAX_PAYLOAD : Nat := 2 ^ 14 + 256

/-- A record is well-formed when all its fields are bytes and the payload
fits the record-size bound. -/
def wellFormedRecord (r : TlsRecord) : Prop :=
  r.contentType < 256 ∧ r.versionMajor < 256 ∧ r.versionMinor < 256 ∧
    r.payload.length ≤ MAX_PAYLOAD ∧ ∀ b ∈ r.payload, b < 256

instance : DecidablePred wellFormedRecord := fun r => by
  unfold wellFormedRecord; infer_instance

/-- Modelled from the spec: record encoding writes the 5-byte header
(content type, version, big-endian 2-byte length) followed by the payload. -/
def encodeRecord (r : TlsRecord) : List Nat :=
  r.contentType :: r.versionMajor :: r.versionMinor ::
    r.payload.length / 256 :: r.payload.length % 256 :: r.payload

/-- Modelled from the spec: record decoding never trusts the length prefix
beyond the bytes actually available.  Fewer than 5 bytes, or fewer payload
bytes than declared, is `truncated` ("need more input"); a declared length
beyond the record-size bound is `malformed`; bytes left over after the
declared payload are `trailingData`. -/
def decodeRecord : List Nat → Except DecodeError TlsRecord
  | ct :: vmaj :: vmin :: lhi :: llo :: rest =>
    let len := lhi * 256 + llo
    if MAX_PAYLOAD < len then Except.error DecodeError.malformed
    else if rest.length < len then Except.error DecodeError.truncated
    else if len < rest.length then Except.error DecodeError.trailingData
    else Except.ok { contentType := ct, versionMajor := vmaj, versionMinor := vmin,
                     payload := rest }
  | _ => Except.error DecodeError.truncated

/-- A handshake message: 1-byte message type, 3-byte big-endian length
prefix, body. -/
structure HandshakeMsg where
  msgType : Nat
  body : List Nat
deriving Repr, DecidableEq

/-- Maximum handshake message body expressible in the 3-byte length. -/
def MAX_HANDSHAKE : Nat := 2 ^ 24 - 1

/-- A handshake message is well-formed when its fields are bytes and the
body fits the 3-byte length prefix. -/
def wellFormedHandshake (m : HandshakeMsg) : Prop :=
  m.msgType < 256 ∧ m.body.length ≤ MAX_HANDSHAKE ∧ ∀ b ∈ m.body, b < 256

instance : DecidablePred wellFormedHandshake := fun m => by
  unfold wellFormedHandshake; infer_instance

/-- Modelled from the spec: handshake message encoding with an explicit
3-byte big-endian length prefix. -/
def encodeHandshake (m : HandshakeMsg) : List Nat :=
  m.msgType :: m.body.length / 65536 :: m.body.length / 256 % 256 ::
    m.body.length % 256 :: m.body

/-- Modelled from the spec: handshake message decoding; insufficient bytes
are `truncated`, surplus bytes are `trailingData`. -/
def decodeHandshake : List Nat → Except DecodeError HandshakeMsg
  | t :: l2 :: l1 :: l0 :: rest =>
    let len := l2 * 65536 + l1 * 256 + l0
    if rest.length < len then Except.error DecodeError.truncated
    else if len < rest.length then Except.error DecodeError.trailingData
    else Except.ok { msgType := t, body := rest }
  | _ => Except.error DecodeError.truncated

theorem decodeRecord_encodeRecord (r : TlsRecord) (h : r.payload.length ≤ MAX_PAYLOAD) :
    decodeRecord (encodeRecord r) = Except.ok r := by
  unfold encodeRecord decodeRecord
  have hlen : r.payload.length / 256 * 256 + r.payload.length % 256 = r.payload.length := by
    omega
  simp only [hlen]
  rw [if_neg (by omega), if_neg (by omega), if_neg (by omega)]

theorem decodeHandshake_encodeHandshake (m : HandshakeMsg)
    (h : m.body.length ≤ MAX_HANDSHAKE) :
    decodeHandshake (encodeHandshake m) = Except.ok m := by
  unfold encodeHandshake decodeHandshake
  have hlen : m.body.length / 65536 * 65536 + m.body.length / 256 % 256 * 256 +
      m.body.length % 256 = m.body.length := by
    omega
  simp only [hlen]
  rw [if_neg (by omega), if_neg (by omega)]

theorem decodeRecord_truncated (r : TlsRecord) (hwf : r.payload.length ≤ MAX_PAYLOAD)
    (n : Nat) (hn : n < (encodeRecord r).length) :
    decodeRecord ((encodeRecord r).take n) = Except.error DecodeError.truncated := by
  have hn5 : n < 5 + r.payload.length := by
    simp only [encodeRecord, List.length_cons] at hn
    omega
  match n, hn5 with
  | 0, _ => rfl
  | 1, _ => rfl
  | 2, _ => rfl
  | 3, _ => rfl
  | 4, _ => rfl
  | (m + 5), hm =>
    have hm' : m < r.payload.length := by omega
    unfold encodeRecord decodeRecord
    simp only [List.take_succ_cons]
    have hlen : r.payload.length / 256 * 256 + r.payload.length % 256 = r.payload.length := by
      omega
    simp only [hlen]
    have htk : (r.payload.take m).length = m := by
      simp [List.length_take]
      omega
    rw [if_neg (by omega), if_pos (by rw [htk]; omega)]

theorem decodeHandshake_truncated (m : HandshakeMsg) (n : Nat)
    (hn : n < (encodeHandshake m).length) :
    decodeHandshake ((encodeHandshake m).take n) = Except.error DecodeError.truncated := by
  have hn4 : n < 4 + m.body.length := by
    simp only [encodeHandshake, List.length_cons] at hn
    omega
  match n, hn4 with
  | 0, _ => rfl
  | 1, _ => rfl
  | 2, _ => rfl
  | 3, _ => rfl
  | (k + 4), hk =>
    have hk' : k < m.body.length := by omega
    unfold encodeHandshake decodeHandshake
    simp only [List.take_succ_cons]
    have hlen : m.body.length / 65536 * 65536 + m.body.length / 256 % 256 * 256 +
        m.body.length % 256 = m.body.length := by
      omega
    simp only [hlen]
    have htk : (m.body.take k).length = k := by
      simp [List.length_take]
      omega
    rw [if_pos (by rw [htk]; omega)]

theorem decodeRecord_trailing (r : TlsRecord) (hwf : r.payload.length ≤ MAX_PAYLOAD)
    (extra : List Nat) (hne : extra ≠ []) :
    decodeRecord (encodeRecord r ++ extra) = Except.error DecodeError.trailingData := by
  have hex : 0 < extra.length := List.length_pos.mpr hne
  unfold encodeRecord decodeRecord
  simp only [List.cons_append]
  have hlen : r.payload.length / 256 * 256 + r.payload.length % 256 = r.payload.length := by
    omega
  simp only [hlen]
  have hlapp : (r.payload ++ extra).length = r.payload.length + extra.length := by
    simp
  rw [if_neg (by omega), if_neg (by omega), if_pos (by omega)]

/-- A TLS extension: 2-byte big-endian extension type, 2-byte big-endian
length prefix, opaque payload. -/
structure TlsExtension where
  extType : Nat
  extData : List Nat
deriving Repr, DecidableEq

/-- Maximum extension payload expressible in the 2-byte length prefix. -/
def MAX_EXTENSION : Nat := 2 ^ 16 - 1

/-- An extension is well-formed when its type fits 16 bits, its payload
fits the 2-byte length prefix, and its payload entries are bytes. -/
def wellFormedExtension (x : TlsExtension) : Prop :=
  x.extType < 65536 ∧ x.extData.length ≤ MAX_EXTENSION ∧ ∀ b ∈ x.extData, b < 256

instance : DecidablePred wellFormedExtension := fun x => by
  unfold wellFormedExtension; infer_instance

/-- Modelled from the spec: extension encoding with a 2-byte type and an
explicit 2-byte big-endian length prefix. -/
def encodeExtension (x : TlsExtension) : List Nat :=
  x.extType / 256 :: x.extType % 256 :: x.extData.length / 256 ::
    x.extData.length % 256 :: x.extData

/-- Modelled from the spec: extension decoding; insufficient bytes are
`truncated`, surplus bytes are `trailingData`. -/
def decodeExtension : List Nat → Except DecodeError TlsExtension
  | t1 :: t0 :: l1 :: l0 :: rest =>
    let len := l1 * 256 + l0
    if rest.length < len then Except.error DecodeError.truncated
    else if len < rest.length then Except.error DecodeError.trailingData
    else Except.ok { extType := t1 * 256 + t0, extData := rest }
  | _ => Except.error DecodeError.truncated

theorem decodeExtension_encodeExtension (x : TlsExtension)
    (h : x.extData.length ≤ MAX_EXTENSION) :
    decodeExtension (encodeExtension x) = Except.ok x := by
  unfold encodeExtension decodeExtension
  have hlen : x.extData.length / 256 * 256 + x.extData.length % 256
      = x.extData.length := by
    omega
  have htyp : x.extType / 256 * 256 + x.extType % 256 = x.extType := by
    omega
  simp only [hlen, htyp]
  rw [if_neg (by omega), if_neg (by omega)]

theorem decodeExtension_truncated (x : TlsExtension) (n : Nat)
    (hn : n < (encodeExtension x).length) :
    decodeExtension ((encodeExtension x).take n) = Except.error DecodeError.truncated := by
  have hn4 : n < 4 + x.extData.length := by
    simp only [encodeExtension, List.length_cons] at hn
    omega
  match n, hn4 with
  | 0, _ => rfl
  | 1, _ => rfl
  | 2, _ => rfl
  | 3, _ => rfl
  | (k + 4), hk =>
    have hk' : k < x.extData.length := by omega
    unfold encodeExtension decodeExtension
    simp only [List.take_succ_cons]
    have hlen : x.extData.length / 256 * 256 + x.extData.length % 256
        = x.extData.length := by
      omega
    simp only [hlen]
    have htk : (x.extData.take k).length = k := by
      simp [List.length_take]
      omega
    rw [if_pos (by rw [htk]; omega)]

theorem decodeExtension_trailing (x : TlsExtension) (extra : List Nat) (hne : extra ≠ []) :
    decodeExtension (encodeExtension x ++ extra) = Except.error DecodeError.trailingData := by
  have hex : 0 < extra.length := List.length_pos.mpr hne
  unfold encodeExtension decodeExtension
  simp only [List.cons_append]
  have hlen : x.extData.length / 256 * 256 + x.extData.length % 256
      = x.extData.length := by
    omega
  simp only [hlen]
  have hlapp : (x.extData ++ extra).length = x.extData.length + extra.length := by
    simp
  rw [if_neg (by omega), if_pos (by omega)]

/-- C3: for every well-formed TLS wire structure — modelled for each family
the claim enumerates: records, handshake messages, and extensions —
encoding then decoding is the identity; decoding a strict prefix of an
encoding (insufficient bytes) reports `truncated`, which is a result
distinct from `malformed` and `trailingData`; and surplus bytes after a
whole structure report `trailingData`. -/
theorem codec_roundtrip_and_truncation (r : TlsRecord) (m : HandshakeMsg) (x : TlsExtension)
    (hr : wellFormedRecord r) (hm : wellFormedHandshake m) (hx : wellFormedExtension x) :
    decodeRecord (encodeRecord r) = Except.ok r
    ∧ decodeHandshake (encodeHandshake m) = Except.ok m
    ∧ decodeExtension (encodeExtension x) = Except.ok x
    ∧ (∀ n < (encodeRecord r).length,
        decodeRecord ((encodeRecord r).take n) = Except.error DecodeError.truncated)
    ∧ (∀ n < (encodeHandshake m).length,
        decodeHandshake ((encodeHandshake m).take n) = Except.error DecodeError.truncated)
    ∧ (∀ n < (encodeExtension x).length,
        decodeExtension ((encodeExtension x).take n) = Except.error DecodeError.truncated)
    ∧ (∀ extra : List Nat, extra ≠ [] →
        decodeRecord (encodeRecord r ++ extra) = Except.error DecodeError.trailingData)
    ∧ (∀ extra : List Nat, extra ≠ [] →
        decodeExtension (encodeExtension x ++ extra) = Except.error DecodeError.trailingData)
    ∧ DecodeError.truncated ≠ DecodeError.malformed
    ∧ DecodeError.truncated ≠ DecodeError.trailingData := by
  obtain ⟨-, -, -, hlen, -⟩ := hr
  exact ⟨decodeRecord_encodeRecord r hlen,
    decodeHandshake_encodeHandshake m hm.2.1,
    decodeExtension_encodeExtension x hx.2.1,
    fun n hn => decodeRecord_truncated r hlen n hn,
    fun n hn => decodeHandshake_truncated m n hn,
    fun n hn => decodeExtension_truncated x n hn,
    fun extra hne => decodeRecord_trailing r hlen extra hne,
    fun extra hne => decodeExtension_trailing x extra hne,
    by decide, by decide⟩

/-- Witness for C3 at a concrete record, handshake message and extension. -/
theorem codec_roundtrip_and_truncation_witness :
    decodeRecord (encodeRecord ⟨22, 3, 3, [1, 2, 3]⟩) =
      Except.ok (⟨22, 3, 3, [1, 2, 3]⟩ : TlsRecord)
    ∧ decodeExtension (encodeExtension ⟨16, [0, 5]⟩) =
      Except.ok (⟨16, [0, 5]⟩ : TlsExtension) := by
  have h := codec_roundtrip_and_truncation ⟨22, 3, 3, [1, 2, 3]⟩ ⟨1, [9]⟩ ⟨16, [0, 5]⟩
    (by decide) (by decide) (by decide)
  exact ⟨h.1, h.2.2.1⟩

/-!
Part 3: the bogo certificate-compression test algorithms
(`ShrinkingAlgorithm`, `ExpandingAlgorithm`, `RandomAlgorithm` in
`bogo/src/main.rs`).  `decompress(input, output)` is modelled as a function
from the input and the caller-provided output buffer to a success flag plus
the final contents of that buffer; in the code every guard precedes the
first write into `output`, so a failing call leaves the buffer untouched.
-/

/-- `ShrinkingAlgorithm::decompress` (algorithm 0xff01): requires
`output.len() == input.len() + 2` and writes `[0, 0] ++ input`. -/
def shrinkingDecompress (input output : List Nat) : Bool × List Nat :=
  if output.length ≠ input.length + 2 then (false, output)
  else (true, 0 :: 0 :: input)

/-- `ExpandingAlgorithm::decompress` (algorithm 0xff02): requires
`output.len() + 4 == input.len()` and the magic prefix `[1, 2, 3, 4]`, and
writes the input minus the prefix. -/
def expandingDecompress (input output : List Nat) : Bool × List Nat :=
  if output.length + 4 ≠ input.length then (false, output)
  else if input.take 4 ≠ [1, 2, 3, 4] then (false, output)
  else (true, input.drop 4)

/-- `RandomAlgorithm::decompress` (algorithm 0xff03): requires
`output.len() + 1 == input.len()` and strips the leading random byte. -/
def randomDecompress (input output : List Nat) : Bool × List Nat :=
  if output.length + 1 ≠ input.length then (false, output)
  else (true, input.drop 1)

/-- C4: every certificate decompressor in the shim fails — and leaves the
output buffer exactly as it was, producing no partial output — whenever
the declared output length does not match the actual expanded length of
its input: the shrinking algorithm fails on every pair with
`output.len() ≠ input.len() + 2`, the expanding algorithm on every pair
with `output.len() + 4 ≠ input.len()` and also whenever its `[1,2,3,4]`
magic prefix is absent, and the random algorithm on every pair with
`output.len() + 1 ≠ input.len()`; each universal is stated independently
over its own `(input, output)` pairs.  On success each algorithm fills the
buffer with the exact original data. -/
theorem decompress_length_mismatch_fails :
    (∀ input output : List Nat, output.length ≠ input.length + 2 →
        shrinkingDecompress input output = (false, output))
    ∧ (∀ input output : List Nat, output.length + 4 ≠ input.length →
        expandingDecompress input output = (false, output))
    ∧ (∀ input output : List Nat, output.length + 4 = input.length →
        input.take 4 ≠ [1, 2, 3, 4] →
        expandingDecompress input output = (false, output))
    ∧ (∀ input output : List Nat, output.length + 1 ≠ input.length →
        randomDecompress input output = (false, output))
    ∧ (∀ input output : List Nat, output.length = input.length + 2 →
        shrinkingDecompress input output = (true, 0 :: 0 :: input))
    ∧ (∀ input output : List Nat, output.length + 4 = input.length →
        input.take 4 = [1, 2, 3, 4] →
        expandingDecompress input output = (true, input.drop 4))
    ∧ (∀ input output : List Nat, output.length + 1 = input.length →
        randomDecompress input output = (true, input.drop 1)) := by
  refine ⟨?_, ?_, ?_, ?_, ?_, ?_, ?_⟩
  · intro input output hs
    rw [shrinkingDecompress, if_pos hs]
  · intro input output he
    rw [expandingDecompress, if_pos he]
  · intro input output hlen hmagic
    rw [expandingDecompress, if_neg (by omega), if_pos hmagic]
  · intro input output hr
    rw [randomDecompress, if_pos hr]
  · intro input output hlen
    rw [shrinkingDecompress, if_neg (by omega)]
  · intro input output hlen hmagic
    rw [expandingDecompress, if_neg (by omega), if_neg (by simp [hmagic])]
  · intro input output hlen
    rw [randomDecompress, if_neg (by omega)]

/-- Witness for C4, including the cross-algorithm pairs: a 6-byte buffer
for a 10-byte input is valid for the expanding algorithm but is rejected
unchanged by the shrinking one, and a 7-byte buffer for a 5-byte input is
valid for shrinking but rejected unchanged by expanding and random. -/
theorem decompress_length_mismatch_fails_witness :
    shrinkingDecompress [1, 2, 3, 4, 5, 6, 7, 8, 9, 10] [0, 0, 0, 0, 0, 0]
      = (false, [0, 0, 0, 0, 0, 0])
    ∧ expandingDecompress [1, 2, 3, 4, 5] [0, 0, 0, 0, 0, 0, 0]
      = (false, [0, 0, 0, 0, 0, 0, 0])
    ∧ randomDecompress [1, 2, 3, 4, 5] [0, 0, 0, 0, 0, 0, 0]
      = (false, [0, 0, 0, 0, 0, 0, 0])
    ∧ expandingDecompress [1, 2, 3, 4, 5, 6, 7, 8, 9, 10] [0, 0, 0, 0, 0, 0]
      = (true, [5, 6, 7, 8, 9, 10]) := by
  have h := decompress_length_mismatch_fails
  exact ⟨h.1 [1, 2, 3, 4, 5, 6, 7, 8, 9, 10] [0, 0, 0, 0, 0, 0] (by decide),
    h.2.1 [1, 2, 3, 4, 5] [0, 0, 0, 0, 0, 0, 0] (by decide),
    h.2.2.2.1 [1, 2, 3, 4, 5] [0, 0, 0, 0, 0, 0, 0] (by decide),
    h.2.2.2.2.2.1 [1, 2, 3, 4, 5, 6, 7, 8, 9, 10] [0, 0, 0, 0, 0, 0]
      (by decide) (by decide)⟩

/-!
Part 4: session resumption aging (`ServerCacheWithResumptionDelay` in
`bogo/src/main.rs`, plus the spec's ticket-lifetime invariant).  The cache
`put` rewrites the stored session value's `creation_time_sec`, subtracting
the configured delay with `u64` wrap-around; the acceptance check at lookup
time lives inside rustls and is modelled from the spec.
-/

/-- `2 ^ 64`, the `u64` modulus. -/
def U64 : Nat := 2 ^ 64

/-- `ServerCacheWithResumptionDelay::put`: the stored session value's
`creation_time_sec` is the original creation time minus the configured
delay (`u64` subtraction, so modulo `2 ^ 64`). -/
def cachePutCreationTime (delay creation_time_sec : Nat) : Nat :=
  (creation_time_sec + (U64 - delay % U64)) % U64

/-- Modelled from the spec: the resumption acceptance check, absent from the
provided sources — "a ticket/session MUST NOT be accepted for resumption if
its age exceeds the server's configured ticket lifetime". -/
def ticketAccepted (stored_creation now lifetime : Nat) : Bool :=
  now - stored_creation ≤ lifetime

/-- The handshake kinds distinguished by the shim (`HandshakeKind`). -/
inductive HandshakeKindM where
  | Full
  | FullWithHelloRetryRequest
  | Resumed
deriving Repr, DecidableEq

/-- Modelled from the spec: the handshake is `Resumed` exactly when the
stored session was accepted for resumption; otherwise it is a full
handshake, with or without HelloRetryRequest. -/
def handshakeKindOf (accepted hrr : Bool) : HandshakeKindM :=
  if accepted then HandshakeKindM.Resumed
  else if hrr then HandshakeKindM.FullWithHelloRetryRequest
  else HandshakeKindM.Full

/-- Kind of handshake that results from offering, at time `now`, a session
stored through `ServerCacheWithResumptionDelay` with the given delay. -/
def resumptionOutcome (delay creation_time_sec now lifetime : Nat) (hrr : Bool) :
    HandshakeKindM :=
  handshakeKindOf (ticketAccepted (cachePutCreationTime delay creation_time_sec) now lifetime) hrr

/-- The handshake kinds accepted by the shim's `-expect-session-miss`
option (`bogo/src/main.rs`). -/
def expectSessionMissKinds : List HandshakeKindM :=
  [HandshakeKindM.Full, HandshakeKindM.FullWithHelloRetryRequest]

/-- C5: a stored session whose (delay-aged) creation time exceeds the ticket
lifetime at lookup time forces a full handshake: the outcome is never
`Resumed`, and it is one of the kinds the shim's `-expect-session-miss`
option accepts (`Full` or `FullWithHelloRetryRequest`). -/
theorem expired_ticket_forces_full_handshake
    (delay creation_time_sec now lifetime : Nat) (hrr : Bool)
    (hexp : lifetime < now - cachePutCreationTime delay creation_time_sec) :
    resumptionOutcome delay creation_time_sec now lifetime hrr ≠ HandshakeKindM.Resumed
    ∧ resumptionOutcome delay creation_time_sec now lifetime hrr ∈ expectSessionMissKinds := by
  have hacc : ticketAccepted (cachePutCreationTime delay creation_time_sec) now lifetime
      = false := by
    unfold ticketAccepted
    simp only [decide_eq_false_iff_not]
    omega
  unfold resumptionOutcome handshakeKindOf
  rw [hacc]
  cases hrr <;> simp [expectSessionMissKinds]

/-- Witness for C5: a session created at time 1000 and stored with a
resumption delay of 100 is 1100 seconds old at time 2000; with a 500-second
lifetime the handshake is `Full`, not `Resumed`. -/
theorem expired_ticket_forces_full_handshake_witness :
    resumptionOutcome 100 1000 2000 500 false ≠ HandshakeKindM.Resumed := by
  exact (expired_ticket_forces_full_handshake 100 1000 2000 500 false (by decide)).1

/-!
Part 5: the shim's process-exit mechanisms and error mapping
(`quit`, `quit_err`, `BOGO_NACK`, `handle_err` in `bogo/src/main.rs`).
A process exit is modelled as the pair (exit code, printed string).
The rustls error enums live outside the provided sources; the inductives
below carry exactly the variants `handle_err` distinguishes, plus an
`other` variant for each catch-all pattern.
-/

/-- `AlertDescription` variants distinguished by `handle_err`. -/
inductive AlertDescM where
  | recordOverflow
  | handshakeFailure
  | protocolVersion
  | internalError
  | unexpectedMessage
  | decompressionFailure
  | other
deriving Repr, DecidableEq

/-- `InvalidMessage` variants distinguished by `handle_err`. -/
inductive InvalidMessageM where
  | missingData (what : String)
  | trailingData (what : String)
  | invalidCcs
  | emptyTicketValue
  | illegalEmptyList (what : String)
  | illegalEmptyValue
  | invalidKeyUpdate
  | unexpectedMessage (what : String)
  | noSignatureSchemes
  | unsupportedCompression
  | invalidCertRequest
  | invalidDhParams
  | missingKeyExchange
  | invalidContentType
  | invalidEmptyPayload
  | unknownProtocolVersion
  | messageTooLarge
  | messageTooShort
  | duplicateExtension (ext : String)
  | unknownHelloRetryRequestExtension
  | unknownCertificateExtension
  | preSharedKeyIsNotFinalExtension
  | other
deriving Repr, DecidableEq

/-- `PeerIncompatible` variants distinguished by `handle_err`. -/
inductive PeerIncompatibleM where
  | serverSentHelloRetryRequestWithUnknownExtension
  | other
deriving Repr, DecidableEq

/-- `PeerMisbehaved` variants distinguished by `handle_err`. -/
inductive PeerMisbehavedM where
  | missingPskModesExtension
  | tooMuchEarlyDataReceived
  | signedHandshakeWithUnadvertisedSigScheme
  | signedKxWithWrongAlgorithm
  | selectedUnofferedCertCompression
  | invalidCertCompression
  | offeredDuplicateCertificateCompressions
  | selectedUnofferedCipherSuite
  | tooManyWarningAlertsReceived
  | tooManyKeyUpdateRequests
  | serverEchoedCompatibilitySessionId
  | tooManyEmptyFragments
  | illegalHelloRetryRequestWithInvalidEch
  | unsolicitedEchExtension
  | unsolicitedEncryptedExtension
  | selectedUnofferedKxGroup
  | invalidKeyShare
  | messageInterleavedWithHandshakeMessage
  | keyEpochWithPendingFragment
  | other
deriving Repr, DecidableEq

/-- `CertificateError` variants distinguished by `handle_err`; the
catch-all carries the debug rendering interpolated into `:BAD_CERT:`. -/
inductive CertificateErrorM where
  | badEncoding
  | badSignature
  | unsupportedSignatureAlgorithm
  | unsupportedSignatureAlgorithmContext
  | unsupportedSignatureAlgorithmForPublicKeyContext
  | invalidOcspResponse
  | other (desc : String)
deriving Repr, DecidableEq

/-- `rustls::Error` variants distinguished by `handle_err`. -/
inductive ErrorM where
  | inappropriateHandshakeMessage
  | inappropriateMessage
  | alertReceived (d : AlertDescM)
  | invalidMessage (m : InvalidMessageM)
  | decryptError
  | noApplicationProtocol
  | peerIncompatible (p : PeerIncompatibleM)
  | rejectedEch
  | peerMisbehaved (p : PeerMisbehavedM)
  | noCertificatesPresented
  | invalidCertificate (c : CertificateErrorM)
  | peerSentOversizedRecord
  | other
deriving Repr, DecidableEq

/-- The shim options `handle_err` consults: whether ECH GREASE is enabled
and whether an ECH config list is configured. -/
structure OptsM where
  enable_ech_grease : Bool
  ech_configured : Bool
deriving Repr, DecidableEq

/-- `quit`: print the recognized failure string and exit with code 0. -/
def quit (why : String) : Nat × String := (0, why)

/-- `quit_err`: print the string and exit with code 1. -/
def quit_err (why : String) : Nat × String := (1, why)

/-- `BOGO_NACK`, the distinguished "not implemented" exit code. -/
def BOGO_NACK : Nat := 89

/-- `handle_err` from `bogo/src/main.rs`: map a TLS error to a process
exit, arm for arm in source order (guarded arms become conditionals whose
else-branch is the arm the Rust match would otherwise fall through to). -/
def handleErr (opts : OptsM) (err : ErrorM) : Nat × String :=
  match err with
  | .inappropriateHandshakeMessage => quit ":UNEXPECTED_MESSAGE:"
  | .inappropriateMessage => quit ":UNEXPECTED_MESSAGE:"
  | .alertReceived .recordOverflow => quit ":TLSV1_ALERT_RECORD_OVERFLOW:"
  | .alertReceived .handshakeFailure => quit ":HANDSHAKE_FAILURE:"
  | .alertReceived .protocolVersion => quit ":WRONG_VERSION:"
  | .alertReceived .internalError => quit ":PEER_ALERT_INTERNAL_ERROR:"
  | .invalidMessage (.missingData "AlertDescription") => quit ":BAD_ALERT:"
  | .invalidMessage (.trailingData "AlertMessagePayload") => quit ":BAD_ALERT:"
  | .invalidMessage (.trailingData "ChangeCipherSpecPayload") => quit ":BAD_CHANGE_CIPHER_SPEC:"
  | .invalidMessage .invalidCcs => quit ":BAD_CHANGE_CIPHER_SPEC:"
  | .invalidMessage .emptyTicketValue => quit ":DECODE_ERROR:"
  | .invalidMessage (.illegalEmptyList _) => quit ":DECODE_ERROR:"
  | .invalidMessage .illegalEmptyValue => quit ":ILLEGAL_EMPTY_VALUE:"
  | .invalidMessage .invalidKeyUpdate => quit ":BAD_HANDSHAKE_MSG:"
  | .invalidMessage (.missingData _) => quit ":BAD_HANDSHAKE_MSG:"
  | .invalidMessage (.trailingData _) => quit ":BAD_HANDSHAKE_MSG:"
  | .invalidMessage (.unexpectedMessage "HelloRetryRequest") => quit ":BAD_HANDSHAKE_MSG:"
  | .invalidMessage .noSignatureSchemes => quit ":BAD_HANDSHAKE_MSG:"
  | .invalidMessage .unsupportedCompression => quit ":BAD_HANDSHAKE_MSG:"
  | .invalidMessage .invalidCertRequest => quit ":BAD_HANDSHAKE_MSG:"
  | .invalidMessage .invalidDhParams => quit ":BAD_HANDSHAKE_MSG:"
  | .invalidMessage .missingKeyExchange => quit ":BAD_HANDSHAKE_MSG:"
  | .invalidMessage .invalidContentType => quit ":GARBAGE:"
  | .invalidMessage .invalidEmptyPayload => quit ":GARBAGE:"
  | .invalidMessage .unknownProtocolVersion => quit ":GARBAGE:"
  | .invalidMessage .messageTooLarge => quit ":GARBAGE:"
  | .invalidMessage .messageTooShort =>
    if opts.enable_ech_grease || opts.ech_configured then quit ":ERROR_PARSING_EXTENSION:"
    else quit ":FIXME:"
  | .invalidMessage (.duplicateExtension _) => quit ":DUPLICATE_EXTENSION:"
  | .invalidMessage .unknownHelloRetryRequestExtension => quit ":UNEXPECTED_EXTENSION:"
  | .invalidMessage .unknownCertificateExtension => quit ":UNEXPECTED_EXTENSION:"
  | .invalidMessage (.unexpectedMessage _) => quit ":GARBAGE:"
  | .invalidMessage .preSharedKeyIsNotFinalExtension => quit ":PRE_SHARED_KEY_MUST_BE_LAST:"
  | .invalidMessage .other => quit ":FIXME:"
  | .decryptError =>
    if opts.ech_configured then quit ":INCONSISTENT_ECH_NEGOTIATION:"
    else quit ":DECRYPTION_FAILED_OR_BAD_RECORD_MAC:"
  | .noApplicationProtocol => quit ":NO_APPLICATION_PROTOCOL:"
  | .peerIncompatible .serverSentHelloRetryRequestWithUnknownExtension =>
    quit ":UNEXPECTED_EXTENSION:"
  | .rejectedEch => quit ":ECH_REJECTED:"
  | .peerIncompatible .other => quit ":INCOMPATIBLE:"
  | .peerMisbehaved .missingPskModesExtension => quit ":MISSING_EXTENSION:"
  | .peerMisbehaved .tooMuchEarlyDataReceived => quit ":TOO_MUCH_READ_EARLY_DATA:"
  | .peerMisbehaved .signedHandshakeWithUnadvertisedSigScheme => quit ":WRONG_SIGNATURE_TYPE:"
  | .peerMisbehaved .signedKxWithWrongAlgorithm => quit ":WRONG_SIGNATURE_TYPE:"
  | .peerMisbehaved .selectedUnofferedCertCompression => quit ":UNKNOWN_CERT_COMPRESSION_ALG:"
  | .peerMisbehaved .invalidCertCompression => quit ":CERT_DECOMPRESSION_FAILED:"
  | .peerMisbehaved .offeredDuplicateCertificateCompressions => quit ":ERROR_PARSING_EXTENSION:"
  | .peerMisbehaved .selectedUnofferedCipherSuite => quit ":WRONG_CIPHER_RETURNED:"
  | .peerMisbehaved .tooManyWarningAlertsReceived => quit ":TOO_MANY_WARNING_ALERTS:"
  | .peerMisbehaved .tooManyKeyUpdateRequests => quit ":TOO_MANY_KEY_UPDATES:"
  | .peerMisbehaved .serverEchoedCompatibilitySessionId =>
    quit ":SERVER_ECHOED_INVALID_SESSION_ID:"
  | .peerMisbehaved .tooManyEmptyFragments => quit ":TOO_MANY_EMPTY_FRAGMENTS:"
  | .peerMisbehaved .illegalHelloRetryRequestWithInvalidEch => quit ":UNEXPECTED_EXTENSION:"
  | .peerMisbehaved .unsolicitedEchExtension => quit ":UNEXPECTED_EXTENSION:"
  | .peerMisbehaved .unsolicitedEncryptedExtension =>
    if opts.ech_configured then quit ":UNEXPECTED_EXTENSION:"
    else quit ":PEER_MISBEHAVIOUR:"
  | .peerMisbehaved .selectedUnofferedKxGroup => quit ":WRONG_CURVE:"
  | .peerMisbehaved .invalidKeyShare => quit ":BAD_ECPOINT:"
  | .peerMisbehaved .messageInterleavedWithHandshakeMessage => quit ":UNEXPECTED_MESSAGE:"
  | .peerMisbehaved .keyEpochWithPendingFragment => quit ":EXCESS_HANDSHAKE_DATA:"
  | .peerMisbehaved .other => quit ":PEER_MISBEHAVIOUR:"
  | .noCertificatesPresented => quit ":NO_CERTS:"
  | .alertReceived .unexpectedMessage => quit ":BAD_ALERT:"
  | .alertReceived .decompressionFailure => quit_err ":SSLV3_ALERT_DECOMPRESSION_FAILURE:"
  | .invalidCertificate .badEncoding => quit ":CANNOT_PARSE_LEAF_CERT:"
  | .invalidCertificate .badSignature => quit ":BAD_SIGNATURE:"
  | .invalidCertificate .unsupportedSignatureAlgorithm => quit ":WRONG_SIGNATURE_TYPE:"
  | .invalidCertificate .unsupportedSignatureAlgorithmContext => quit ":WRONG_SIGNATURE_TYPE:"
  | .invalidCertificate .unsupportedSignatureAlgorithmForPublicKeyContext =>
    quit ":WRONG_SIGNATURE_TYPE:"
  | .invalidCertificate .invalidOcspResponse => quit ":OCSP_CB_ERROR:"
  | .invalidCertificate (.other desc) => quit (":BAD_CERT: (" ++ desc ++ ")")
  | .peerSentOversizedRecord => quit ":DATA_LENGTH_TOO_LONG:"
  | .alertReceived .other => quit ":FIXME:"
  | .other => quit ":FIXME:"

/-- The shim options whose match arms exit with `BOGO_NACK` ("Not
implemented things" in `main`). -/
def nyiOptions : List String :=
  ["-dtls", "-cipher", "-psk", "-renegotiate-freely", "-false-start",
   "-fallback-scsv", "-fail-early-callback", "-fail-cert-callback",
   "-install-ddos-callback", "-advertise-npn", "-advertise-empty-npn",
   "-verify-fail", "-expect-channel-id", "-send-channel-id",
   "-select-next-proto", "-select-empty-next-proto", "-expect-verify-result",
   "-send-alert", "-digest-prefs", "-use-exporter-between-reads",
   "-ticket-key", "-tls-unique", "-enable-server-custom-extension",
   "-enable-client-custom-extension", "-expect-dhe-group-size",
   "-use-ticket-callback", "-enable-grease", "-enable-channel-id",
   "-expect-early-data-info", "-expect-cipher-aes",
   "-retain-only-sha256-client-cert-initial", "-expect-draft-downgrade",
   "-allow-unknown-alpn-protos", "-on-initial-tls13-variant",
   "-on-resume-export-early-keying-material", "-on-resume-enable-early-data",
   "-export-early-keying-material", "-handshake-twice",
   "-on-resume-verify-fail", "-reverify-on-resume", "-no-op-extra-handshake",
   "-expect-peer-cert-file", "-no-rsa-pss-rsae-certs",
   "-ignore-tls13-downgrade", "-allow-hint-mismatch", "-wpa-202304",
   "-cnsa-202407", "-srtp-profiles", "-use-ticket-aead-callback",
   "-signed-cert-timestamps", "-on-initial-expect-peer-cert-file",
   "-resumption-across-names-enabled", "-expect-resumable-across-names",
   "-expect-not-resumable-across-names", "-use-custom-verify-callback"]

/-- The exit taken by `main` for a not-implemented option: print and exit
with `BOGO_NACK`; any other argument is not decided by this arm. -/
def nyiOptionExit (arg : String) : Option (Nat × String) :=
  if nyiOptions.contains arg then some (BOGO_NACK, arg) else none

/-- C8: the shim's three-way exit-code contract.  `quit` exits 0 with the
recognized failure string; `quit_err` exits 1; every not-implemented option
exits with the distinguished code `BOGO_NACK = 89`; the three codes are
pairwise distinct; and mapped TLS errors always terminate through `quit`
or `quit_err` (exit code 0 or 1), never through the feature-gap code. -/
theorem shim_exit_code_contract :
    (∀ why : String, quit why = (0, why))
    ∧ (∀ why : String, quit_err why = (1, why))
    ∧ nyiOptions.all (fun arg => nyiOptionExit arg == some (89, arg))
    ∧ BOGO_NACK = 89
    ∧ BOGO_NACK ≠ 0 ∧ BOGO_NACK ≠ 1
    ∧ (∀ (opts : OptsM) (e : ErrorM),
        (handleErr opts e).1 = 0 ∨ (handleErr opts e).1 = 1) := by
  refine ⟨fun why => rfl, fun why => rfl, by decide, rfl, by decide, by decide, ?_⟩
  intro opts e
  cases e with
  | alertReceived d => cases d <;> simp [handleErr, quit, quit_err]
  | invalidMessage m =>
    cases m <;> simp only [handleErr] <;> (repeat' split) <;> simp [quit, quit_err]
  | peerIncompatible p => cases p <;> simp [handleErr, quit, quit_err]
  | peerMisbehaved p =>
    cases p <;> simp only [handleErr] <;> (repeat' split) <;> simp [quit, quit_err]
  | invalidCertificate c => cases c <;> simp [handleErr, quit, quit_err]
  | decryptError =>
    simp only [handleErr]
    (repeat' split) <;> simp [quit, quit_err]
  | _ => simp [handleErr, quit, quit_err]

/-!
Part 6: early-data admission (spec section 4.4, "Early data (0-RTT)").
The admission check lives inside rustls; it is modelled from the spec as a
byte counter bounded by the configured budget.  The shim side
(`make_server_cfg` setting `max_early_data_size`, and `handle_err` mapping
`TooMuchEarlyDataReceived`) is embedded from `bogo/src/main.rs`.
-/

/-- A 0-RTT-enabled server connection: the configured byte budget, the
count of early-data bytes received, and the bytes delivered to the
application-data reader. -/
structure EarlyDataServer where
  max_early_data_size : Nat
  received : Nat
  delivered : List Nat
deriving Repr, DecidableEq

/-- Initial early-data state for a server configured with the given
budget. -/
def initEarlyData (budget : Nat) : EarlyDataServer :=
  { max_early_data_size := budget, received := 0, delivered := [] }

/-- Modelled from the spec: "server admission is bounded by a maximum
early-data byte budget; data beyond that budget is rejected
(`TooMuchEarlyDataReceived`)".  Receiving a chunk that would push the byte
count past the budget fails with that error and delivers nothing; an
in-budget chunk is counted and delivered to the reader. -/
def recvEarlyData (st : EarlyDataServer) (chunk : List Nat) :
    Except ErrorM EarlyDataServer :=
  if st.max_early_data_size < st.received + chunk.length then
    Except.error (ErrorM.peerMisbehaved PeerMisbehavedM.tooMuchEarlyDataReceived)
  else
    Except.ok { st with received := st.received + chunk.length,
                        delivered := st.delivered ++ chunk }

/-- Process a sequence of early-data chunks in arrival order. -/
def recvEarlyDataAll (st : EarlyDataServer) : List (List Nat) → Except ErrorM EarlyDataServer
  | [] => Except.ok st
  | chunk :: rest =>
    match recvEarlyData st chunk with
    | Except.error e => Except.error e
    | Except.ok st2 => recvEarlyDataAll st2 rest

/-- Total number of bytes in a chunk sequence. -/
def totalLen (chunks : List (List Nat)) : Nat :=
  (chunks.map List.length).sum

/-- `make_server_cfg` from `bogo/src/main.rs`: with `-enable-early-data`
the server's `max_early_data_size` is set to 14336 (boringssl's
`kMaxEarlyDataAccepted`); otherwise it keeps the rustls default of 0. -/
def makeServerCfgMaxEarlyData (enable_early_data : Bool) : Nat :=
  if enable_early_data then 14336 else 0

theorem recvEarlyDataAll_overflow (chunks : List (List Nat)) :
    ∀ st : EarlyDataServer, st.max_early_data_size < st.received + totalLen chunks →
      st.received ≤ st.max_early_data_size →
      recvEarlyDataAll st chunks =
        Except.error (ErrorM.peerMisbehaved PeerMisbehavedM.tooMuchEarlyDataReceived) := by
  induction chunks with
  | nil =>
    intro st hover hok
    exfalso
    simp [totalLen] at hover
    omega
  | cons chunk rest ih =>
    intro st hover hok
    rw [recvEarlyDataAll]
    unfold recvEarlyData
    by_cases h : st.max_early_data_size < st.received + chunk.length
    · rw [if_pos h]
    · rw [if_neg h]
      simp only []
      apply ih
      · simp only [totalLen, List.map_cons, List.sum_cons] at hover
        simp [totalLen]
        omega
      · simp
        omega

theorem recvEarlyDataAll_delivered_bounded (chunks : List (List Nat)) :
    ∀ st st' : EarlyDataServer, recvEarlyDataAll st chunks = Except.ok st' →
      st.delivered.length = st.received →
      st.received ≤ st.max_early_data_size →
      st'.delivered.length ≤ st.max_early_data_size := by
  induction chunks with
  | nil =>
    intro st st' h hlen hok
    rw [recvEarlyDataAll] at h
    cases h
    omega
  | cons chunk rest ih =>
    intro st st' h hlen hok
    rw [recvEarlyDataAll] at h
    unfold recvEarlyData at h
    by_cases hc : st.max_early_data_size < st.received + chunk.length
    · rw [if_pos hc] at h
      cases h
    · rw [if_neg hc] at h
      simp only [] at h
      have := ih _ st' h (by simp; omega) (by simp; omega)
      simpa using this

/-- C6: a 0-RTT client sending more early-data bytes than the server's
configured budget makes the server connection fail with
`TooMuchEarlyDataReceived`, which the shim surfaces as
`:TOO_MUCH_READ_EARLY_DATA:` with exit code 0; and no run ever delivers
more early-data bytes to the application-data reader than the budget.
The shim's `-enable-early-data` budget is 14336 bytes. -/
theorem early_data_budget_enforced (budget : Nat) (chunks : List (List Nat))
    (hover : budget < totalLen chunks) :
    recvEarlyDataAll (initEarlyData budget) chunks =
      Except.error (ErrorM.peerMisbehaved PeerMisbehavedM.tooMuchEarlyDataReceived)
    ∧ (∀ opts : OptsM,
        handleErr opts (ErrorM.peerMisbehaved PeerMisbehavedM.tooMuchEarlyDataReceived)
          = (0, ":TOO_MUCH_READ_EARLY_DATA:"))
    ∧ (∀ (chunks2 : List (List Nat)) (st' : EarlyDataServer),
        recvEarlyDataAll (initEarlyData budget) chunks2 = Except.ok st' →
        st'.delivered.length ≤ budget)
    ∧ makeServerCfgMaxEarlyData true = 14336 := by
  refine ⟨?_, fun opts => rfl, ?_, rfl⟩
  · apply recvEarlyDataAll_overflow
    · simpa [initEarlyData]
    · simp [initEarlyData]
  · intro chunks2 st' h
    exact recvEarlyDataAll_delivered_bounded chunks2 _ st' h (by simp [initEarlyData])
      (by simp [initEarlyData])

/-- Witness for C6: a server with a 4-byte budget receiving two 3-byte
chunks fails with the too-much-early-data error. -/
theorem early_data_budget_enforced_witness :
    recvEarlyDataAll (initEarlyData 4) [[1, 2, 3], [4, 5, 6]] =
      Except.error (ErrorM.peerMisbehaved PeerMisbehavedM.tooMuchEarlyDataReceived) :=
  (early_data_budget_enforced 4 [[1, 2, 3], [4, 5, 6]] (by decide)).1

/-!
Part 7: fatal-error teardown (`after_read`, `flush`, `orderly_close` in
`bogo/src/main.rs`).  The shim connection is modelled by the data these
functions inspect: the buffered outbound TLS bytes (including any alert the
engine queued while failing, i.e. `wants_write` data) and the result of
`process_new_packets` on the buffered input.
-/

/-- The shim's view of a rustls `Connection` at the point `after_read`
runs: the pending outbound TLS bytes (`wants_write` data, including any
queued alert) and the outcome `process_new_packets` produces. -/
structure ShimConn where
  pendingTls : List Nat
  processResult : Except ErrorM Unit
deriving Repr

/-- The shim's TCP socket: bytes written so far, shutdown flags, and a
`broken` flag making `write_tls` calls against it fail. -/
structure TcpSock where
  written : List Nat
  shutdownWrite : Bool
  shutdownRead : Bool
  broken : Bool
deriving Repr, DecidableEq

/-- `flush` from `bogo/src/main.rs`: loop `write_tls` while the connection
wants write.  If a `write_tls` call fails, the shim prints the IO error and
exits the process with code 0 on the spot (no orderly close, no
`handle_err`); otherwise all pending outbound TLS bytes reach the socket
and the final `conn.flush()` succeeds. -/
def flushShim (sess : ShimConn) (conn : TcpSock) :
    Except (Nat × String) (ShimConn × TcpSock) :=
  if sess.pendingTls.isEmpty then Except.ok (sess, conn)
  else if conn.broken then Except.error (0, "IO error")
  else Except.ok ({ sess with pendingTls := [] },
    { conn with written := conn.written ++ sess.pendingTls })

/-- `orderly_close`: shut down the write side, drain the peer until EOF,
then shut down the read side. -/
def orderlyClose (conn : TcpSock) : TcpSock :=
  { conn with shutdownWrite := true, shutdownRead := true }

/-- Result of `after_read`: either the connection continues, or the process
exits with a code and message. -/
inductive AfterReadResult where
  | continue_ (sess : ShimConn) (conn : TcpSock)
  | exited (code : Nat) (msg : String) (conn : TcpSock)
deriving Repr

/-- `after_read` from `bogo/src/main.rs`: if `process_new_packets` fails,
first `flush` (send any pending alerts) — which may itself exit the process
with code 0 on a transport write error — then `orderly_close`, and only
then map the error through `handle_err` and exit. -/
def afterRead (opts : OptsM) (sess : ShimConn) (conn : TcpSock) : AfterReadResult :=
  match sess.processResult with
  | Except.ok _ => AfterReadResult.continue_ sess conn
  | Except.error err =>
    match flushShim sess conn with
    | Except.error ec => AfterReadResult.exited ec.1 ec.2 conn
    | Except.ok (sess2, conn2) =>
      AfterReadResult.exited (handleErr opts err).1 (handleErr opts err).2
        (orderlyClose conn2)

/-- Counterexample to C7 as stated: with one pending alert byte, a decrypt
error, and a transport whose writes fail, `after_read` exits with code 0
and the message `IO error` while the socket is untouched — nothing was
flushed, neither direction was shut down, and the exit is not the
`handle_err` mapping of the error. -/
theorem after_read_flush_error_counterexample :
    afterRead ⟨false, false⟩ ⟨[21], Except.error ErrorM.decryptError⟩
        ⟨[], false, false, true⟩
      = AfterReadResult.exited 0 "IO error" ⟨[], false, false, true⟩
    ∧ ¬ (afterRead ⟨false, false⟩ ⟨[21], Except.error ErrorM.decryptError⟩
          ⟨[], false, false, true⟩
        = AfterReadResult.exited
            (handleErr ⟨false, false⟩ ErrorM.decryptError).1
            (handleErr ⟨false, false⟩ ErrorM.decryptError).2
            { written := [] ++ [21], shutdownWrite := true, shutdownRead := true,
              broken := true }) := by
  constructor
  · rfl
  · intro h
    have h2 : AfterReadResult.exited 0 "IO error" (⟨[], false, false, true⟩ : TcpSock)
        = AfterReadResult.exited 0 ":DECRYPTION_FAILED_OR_BAD_RECORD_MAC:"
            ⟨[21], true, true, true⟩ := h
    injection h2 with hcode hmsg hconn
    exact absurd hmsg (by decide)

/-- C7 (amended): every engine error from `process_new_packets` is fatal
with no retry — `after_read` never continues after an error.  When the
transport accepts the writes, `after_read` flushes every pending outbound
TLS byte (hence the queued alert), performs the orderly close, and exits
with the `handle_err` mapping of the error; but if a `write_tls` call
fails during the flush, the shim exits immediately with code 0 and the
`IO error` message, without the orderly close or the error mapping. -/
theorem after_read_flushes_then_exits (opts : OptsM) (sess : ShimConn) (conn : TcpSock)
    (err : ErrorM) (herr : sess.processResult = Except.error err) :
    (conn.broken = false →
      afterRead opts sess conn =
        AfterReadResult.exited (handleErr opts err).1 (handleErr opts err).2
          { written := conn.written ++ sess.pendingTls,
            shutdownWrite := true, shutdownRead := true, broken := false })
    ∧ (conn.broken = true → sess.pendingTls ≠ [] →
      afterRead opts sess conn = AfterReadResult.exited 0 "IO error" conn)
    ∧ (∀ sess2 conn2, afterRead opts sess conn ≠ AfterReadResult.continue_ sess2 conn2) := by
  obtain ⟨pend, pres⟩ := sess
  obtain ⟨wr, sw, sr, br⟩ := conn
  simp only [] at herr
  subst herr
  refine ⟨?_, ?_, ?_⟩
  · intro hbr
    simp only [] at hbr
    subst hbr
    cases pend <;> simp [afterRead, flushShim, orderlyClose]
  · intro hbr hpend
    simp only [] at hbr
    subst hbr
    cases pend with
    | nil => exact absurd rfl hpend
    | cons b rest => simp [afterRead, flushShim]
  · intro sess2 conn2
    unfold afterRead
    simp only []
    cases hf : flushShim ⟨pend, Except.error err⟩ ⟨wr, sw, sr, br⟩ with
    | error ec => simp
    | ok pr =>
      obtain ⟨s2, c2⟩ := pr
      simp

/-- Witness for C7 (amended): over a working transport, a connection with
one pending alert byte and a decrypt error is torn down with the alert
flushed, both socket directions shut, and exit
`(0, ":DECRYPTION_FAILED_OR_BAD_RECORD_MAC:")`. -/
theorem after_read_flushes_then_exits_witness :
    afterRead ⟨false, false⟩ ⟨[21, 2, 51], Except.error ErrorM.decryptError⟩
        ⟨[9], false, false, false⟩ =
      AfterReadResult.exited 0 ":DECRYPTION_FAILED_OR_BAD_RECORD_MAC:"
        ⟨[9, 21, 2, 51], true, true, false⟩ := by
  have h := after_read_flushes_then_exits ⟨false, false⟩
    ⟨[21, 2, 51], Except.error ErrorM.decryptError⟩ ⟨[9], false, false, false⟩
    ErrorM.decryptError rfl
  exact h.1 rfl

/-!
Part 8: the `Stream` transport adapter (`rustls/src/stream.rs`).  The
adapter is generic over the connection: `StreamOps` carries the operations
`stream.rs` invokes on `ConnectionCommon` and the socket, each modelled as
a function returning a result together with the mutated states.  The
masking property (C9) is proved for arbitrary operations; the prior-IO and
EOF properties (C10) are proved over a concrete connection model whose
`complete_io` is modelled from that method's documented contract.
-/

/-- The operations `stream.rs` uses on a connection `C` and socket `S`:
`is_handshaking`, `wants_write`, `complete_io`, and the plaintext writer
operations.  Each mutating call returns its result plus the new states. -/
structure StreamOps (C S : Type) where
  is_handshaking : C → Bool
  wants_write : C → Bool
  complete_io : C → S → Except String (Nat × Nat) × C × S
  writer_write : C → List Nat → Except String Nat × C
  writer_write_vectored : C → List (List Nat) → Except String Nat × C
  writer_flush : C → Except String Unit × C

/-- The `wants_write` half of `Stream::complete_prior_io`: if the
connection has pending TLS output, complete that I/O, propagating errors. -/
def complete_write_pending {C S : Type} (ops : StreamOps C S) (c : C) (s : S) :
    Except String Unit × C × S :=
  if ops.wants_write c then
    match ops.complete_io c s with
    | (Except.error e, c2, s2) => (Except.error e, c2, s2)
    | (Except.ok _, c2, s2) => (Except.ok (), c2, s2)
  else (Except.ok (), c, s)

/-- `Stream::complete_prior_io`: if handshaking, complete all the I/O for
that; then, if there is data to write, write it all; errors propagate. -/
def complete_prior_io {C S : Type} (ops : StreamOps C S) (c : C) (s : S) :
    Except String Unit × C × S :=
  if ops.is_handshaking c then
    match ops.complete_io c s with
    | (Except.error e, c2, s2) => (Except.error e, c2, s2)
    | (Except.ok _, c2, s2) => complete_write_pending ops c2 s2
  else complete_write_pending ops c s

/-- `Stream::write`: complete prior I/O, hand the buffer to the
connection's writer, then try to write the underlying transport while
discarding any error so that it cannot mask the consumed length. -/
def stream_write {C S : Type} (ops : StreamOps C S) (c : C) (s : S) (buf : List Nat) :
    Except String Nat × C × S :=
  match complete_prior_io ops c s with
  | (Except.error e, c2, s2) => (Except.error e, c2, s2)
  | (Except.ok _, c2, s2) =>
    match ops.writer_write c2 buf with
    | (Except.error e, c3) => (Except.error e, c3, s2)
    | (Except.ok len, c3) =>
      match ops.complete_io c3 s2 with
      | (_, c4, s4) => (Except.ok len, c4, s4)

/-- `Stream::write_vectored`, same shape as `Stream::write`. -/
def stream_write_vectored {C S : Type} (ops : StreamOps C S) (c : C) (s : S)
    (bufs : List (List Nat)) : Except String Nat × C × S :=
  match complete_prior_io ops c s with
  | (Except.error e, c2, s2) => (Except.error e, c2, s2)
  | (Except.ok _, c2, s2) =>
    match ops.writer_write_vectored c2 bufs with
    | (Except.error e, c3) => (Except.error e, c3, s2)
    | (Except.ok len, c3) =>
      match ops.complete_io c3 s2 with
      | (_, c4, s4) => (Except.ok len, c4, s4)

/-- `Stream::flush`: complete prior I/O, flush the writer, and if output is
pending complete that I/O, propagating errors. -/
def stream_flush {C S : Type} (ops : StreamOps C S) (c : C) (s : S) :
    Except String Unit × C × S :=
  match complete_prior_io ops c s with
  | (Except.error e, c2, s2) => (Except.error e, c2, s2)
  | (Except.ok _, c2, s2) =>
    match ops.writer_flush c2 with
    | (Except.error e, c3) => (Except.error e, c3, s2)
    | (Except.ok _, c3) =>
      if ops.wants_write c3 then
        match ops.complete_io c3 s2 with
        | (Except.error e, c4, s4) => (Except.error e, c4, s4)
        | (Except.ok _, c4, s4) => (Except.ok (), c4, s4)
      else (Except.ok (), c3, s2)

/-- Concrete model of a `ConnectionCommon`: handshake status and the bytes
the handshake still needs, pending outbound TLS bytes (`wants_write`),
plaintext ready for the reader, and the TLS input byte count still wanted
(`wants_read`). -/
structure MConn where
  handshaking : Bool
  hsNeed : Nat
  pendingTls : List Nat
  plainIn : List Nat
  needRead : Nat
deriving Repr, DecidableEq

/-- Concrete model of the socket: inbound bytes not yet read, bytes
accepted by the transport, and a broken flag making writes fail. -/
structure MSock where
  incoming : List Nat
  accepted : List Nat
  broken : Bool
deriving Repr, DecidableEq

/-- Modelled from the spec: `ConnectionCommon::complete_io` performs one
round of I/O — it first writes all pending TLS output to the socket
(failing if the transport is broken), completes the handshake if the
needed bytes are available (an EOF mid-handshake is an error), otherwise
reads at most one available byte of wanted TLS input (reading zero bytes
at EOF), and returns (bytes read, bytes written). -/
def mCompleteIo (c : MConn) (s : MSock) : Except String (Nat × Nat) × MConn × MSock :=
  if s.broken then (Except.error "broken pipe", c, s)
  else if c.handshaking then
    if c.hsNeed ≤ s.incoming.length then
      (Except.ok (c.hsNeed, c.pendingTls.length),
       { c with pendingTls := [], handshaking := false, hsNeed := 0 },
       { s with accepted := s.accepted ++ c.pendingTls, incoming := s.incoming.drop c.hsNeed })
    else
      (Except.error "unexpected eof during handshake",
       { c with pendingTls := [] },
       { s with accepted := s.accepted ++ c.pendingTls })
  else if 0 < c.needRead then
    match s.incoming with
    | [] =>
      (Except.ok (0, c.pendingTls.length),
       { c with pendingTls := [] },
       { s with accepted := s.accepted ++ c.pendingTls })
    | b :: rest =>
      (Except.ok (1, c.pendingTls.length),
       { c with pendingTls := [], needRead := c.needRead - 1,
                plainIn := if c.needRead = 1 then c.plainIn ++ [b] else c.plainIn },
       { s with accepted := s.accepted ++ c.pendingTls, incoming := rest })
  else
    (Except.ok (0, c.pendingTls.length),
     { c with pendingTls := [] },
     { s with accepted := s.accepted ++ c.pendingTls })

/-- The concrete `StreamOps` instance for `MConn`/`MSock`: the writer
accepts the whole buffer, queueing it as pending TLS output. -/
def mOps : StreamOps MConn MSock :=
  { is_handshaking := fun c => c.handshaking,
    wants_write := fun c => !c.pendingTls.isEmpty,
    complete_io := mCompleteIo,
    writer_write := fun c buf =>
      (Except.ok buf.length, { c with pendingTls := c.pendingTls ++ buf }),
    writer_write_vectored := fun c bufs =>
      (Except.ok (totalLen bufs), { c with pendingTls := c.pendingTls ++ bufs.flatten }),
    writer_flush := fun c => (Except.ok (), c) }

theorem mCompleteIo_ok_post (c : MConn) (s : MSock) (v : Nat × Nat) (c2 : MConn) (s2 : MSock)
    (h : mCompleteIo c s = (Except.ok v, c2, s2)) :
    c2.handshaking = false ∧ c2.pendingTls = [] := by
  unfold mCompleteIo at h
  by_cases hb : s.broken = true
  · rw [if_pos hb] at h
    simp at h
  · rw [if_neg hb] at h
    by_cases hh : c.handshaking = true
    · rw [if_pos hh] at h
      by_cases hn : c.hsNeed ≤ s.incoming.length
      · rw [if_pos hn] at h
        simp only [Prod.mk.injEq, Except.ok.injEq] at h
        obtain ⟨-, hc, -⟩ := h
        subst hc
        exact ⟨rfl, rfl⟩
      · rw [if_neg hn] at h
        simp at h
    · rw [if_neg hh] at h
      simp only [Bool.not_eq_true] at hh
      by_cases hnr : 0 < c.needRead
      · rw [if_pos hnr] at h
        cases hin : s.incoming with
        | nil =>
          rw [hin] at h
          simp only [Prod.mk.injEq, Except.ok.injEq] at h
          obtain ⟨-, hc, -⟩ := h
          subst hc
          exact ⟨hh, rfl⟩
        | cons b rest =>
          rw [hin] at h
          simp only [Prod.mk.injEq, Except.ok.injEq] at h
          obtain ⟨-, hc, -⟩ := h
          subst hc
          exact ⟨hh, rfl⟩
      · rw [if_neg hnr] at h
        simp only [Prod.mk.injEq, Except.ok.injEq] at h
        obtain ⟨-, hc, -⟩ := h
        subst hc
        exact ⟨hh, rfl⟩

theorem mCompleteIo_measure (c : MConn) (s : MSock) (rd wr : Nat) (c2 : MConn) (s2 : MSock)
    (h : mCompleteIo c s = (Except.ok (rd, wr), c2, s2)) (hrd : rd ≠ 0) :
    c2.needRead + (if c2.handshaking then 1 else 0)
      < c.needRead + (if c.handshaking then 1 else 0) := by
  unfold mCompleteIo at h
  by_cases hb : s.broken = true
  · rw [if_pos hb] at h
    simp at h
  · rw [if_neg hb] at h
    by_cases hh : c.handshaking = true
    · rw [if_pos hh] at h
      by_cases hn : c.hsNeed ≤ s.incoming.length
      · rw [if_pos hn] at h
        simp only [Prod.mk.injEq, Except.ok.injEq] at h
        obtain ⟨-, hc, -⟩ := h
        subst hc
        simp [hh]
      · rw [if_neg hn] at h
        simp at h
    · rw [if_neg hh] at h
      simp only [Bool.not_eq_true] at hh
      by_cases hnr : 0 < c.needRead
      · rw [if_pos hnr] at h
        cases hin : s.incoming with
        | nil =>
          rw [hin] at h
          simp only [Prod.mk.injEq, Except.ok.injEq] at h
          obtain ⟨⟨hr, -⟩, -, -⟩ := h
          exact absurd hr.symm hrd
        | cons b rest =>
          rw [hin] at h
          simp only [Prod.mk.injEq, Except.ok.injEq] at h
          obtain ⟨-, hc, -⟩ := h
          subst hc
          simp [hh]
          omega
      · rw [if_neg hnr] at h
        simp only [Prod.mk.injEq, Except.ok.injEq] at h
        obtain ⟨⟨hr, -⟩, -, -⟩ := h
        exact absurd hr.symm hrd

theorem mCompleteIo_read_step (c : MConn) (s : MSock) (rd wr : Nat) (c2 : MConn) (s2 : MSock)
    (h : mCompleteIo c s = (Except.ok (rd, wr), c2, s2))
    (hh : c.handshaking = false) (hnr : 0 < c.needRead) :
    (rd = 0 → s2.incoming = []) ∧ (rd ≠ 0 → c2.needRead = c.needRead - 1) := by
  unfold mCompleteIo at h
  by_cases hb : s.broken = true
  · rw [if_pos hb] at h
    simp at h
  · rw [if_neg hb] at h
    rw [if_neg (by simp [hh])] at h
    rw [if_pos hnr] at h
    cases hin : s.incoming with
    | nil =>
      rw [hin] at h
      simp only [Prod.mk.injEq, Except.ok.injEq] at h
      obtain ⟨⟨hr, -⟩, -, hs⟩ := h
      subst hs
      exact ⟨fun _ => rfl, fun hne => absurd hr.symm hne⟩
    | cons b rest =>
      rw [hin] at h
      simp only [Prod.mk.injEq, Except.ok.injEq] at h
      obtain ⟨⟨hr, -⟩, hc, -⟩ := h
      subst hc
      exact ⟨fun h0 => absurd hr (by omega), fun _ => rfl⟩

/-- The `while wants_read` loop inside `Stream::prepare_read`: complete
one round of I/O at a time, stopping as soon as a round reads zero bytes
from the transport (EOF). -/
def prepareReadLoop (c : MConn) (s : MSock) : Except String Unit × MConn × MSock :=
  if 0 < c.needRead then
    match hio : mCompleteIo c s with
    | (Except.error e, c2, s2) => (Except.error e, c2, s2)
    | (Except.ok (rd, wr), c2, s2) =>
      if hrd : rd = 0 then (Except.ok (), c2, s2)
      else prepareReadLoop c2 s2
  else (Except.ok (), c, s)
termination_by c.needRead + (if c.handshaking then 1 else 0)
decreasing_by
  exact mCompleteIo_measure c s rd wr c2 s2 hio hrd

/-- `Stream::prepare_read`: complete prior I/O, then loop `complete_io`
while the connection wants read, breaking on a zero-byte read. -/
def prepare_read (c : MConn) (s : MSock) : Except String Unit × MConn × MSock :=
  match complete_prior_io mOps c s with
  | (Except.error e, c2, s2) => (Except.error e, c2, s2)
  | (Except.ok _, c2, s2) => prepareReadLoop c2 s2

/-- `Stream::read`: prepare a read, then take plaintext from the reader. -/
def stream_read (c : MConn) (s : MSock) (n : Nat) :
    Except String (List Nat) × MConn × MSock :=
  match prepare_read c s with
  | (Except.error e, c2, s2) => (Except.error e, c2, s2)
  | (Except.ok _, c2, s2) =>
    (Except.ok (c2.plainIn.take n), { c2 with plainIn := c2.plainIn.drop n }, s2)

/-- `Stream::fill_buf`: prepare a read, then expose the buffered
plaintext without consuming it. -/
def stream_fill_buf (c : MConn) (s : MSock) :
    Except String (List Nat) × MConn × MSock :=
  match prepare_read c s with
  | (Except.error e, c2, s2) => (Except.error e, c2, s2)
  | (Except.ok _, c2, s2) => (Except.ok c2.plainIn, c2, s2)

theorem mCompleteIo_preserves_not_handshaking (c : MConn) (s : MSock)
    (r : Except String (Nat × Nat)) (c2 : MConn) (s2 : MSock)
    (h : mCompleteIo c s = (r, c2, s2)) (hh : c.handshaking = false) :
    c2.handshaking = false := by
  unfold mCompleteIo at h
  by_cases hb : s.broken = true
  · rw [if_pos hb] at h
    simp only [Prod.mk.injEq] at h
    obtain ⟨-, hc, -⟩ := h
    subst hc
    exact hh
  · rw [if_neg hb, if_neg (by simp [hh])] at h
    by_cases hnr : 0 < c.needRead
    · rw [if_pos hnr] at h
      cases hin : s.incoming with
      | nil =>
        rw [hin] at h
        simp only [Prod.mk.injEq] at h
        obtain ⟨-, hc, -⟩ := h
        subst hc
        exact hh
      | cons b rest =>
        rw [hin] at h
        simp only [Prod.mk.injEq] at h
        obtain ⟨-, hc, -⟩ := h
        subst hc
        exact hh
    · rw [if_neg hnr] at h
      simp only [Prod.mk.injEq] at h
      obtain ⟨-, hc, -⟩ := h
      subst hc
      exact hh

theorem complete_prior_io_m_post (c : MConn) (s : MSock) (u : Unit) (c2 : MConn) (s2 : MSock)
    (h : complete_prior_io mOps c s = (Except.ok u, c2, s2)) :
    c2.handshaking = false ∧ c2.pendingTls = [] := by
  unfold complete_prior_io complete_write_pending at h
  by_cases hh : mOps.is_handshaking c = true
  · rw [if_pos hh] at h
    rcases hio : mOps.complete_io c s with ⟨r, cm, sm⟩
    rw [hio] at h
    cases r with
    | error e => simp at h
    | ok v =>
      have hio2 : mCompleteIo c s = (Except.ok v, cm, sm) := hio
      have hpost := mCompleteIo_ok_post c s v cm sm hio2
      simp only [] at h
      rw [if_neg (by simp [mOps, hpost.2])] at h
      simp only [Prod.mk.injEq, Except.ok.injEq] at h
      obtain ⟨-, hc, -⟩ := h
      subst hc
      exact hpost
  · rw [if_neg hh] at h
    by_cases hw : mOps.wants_write c = true
    · rw [if_pos hw] at h
      rcases hio : mOps.complete_io c s with ⟨r, cm, sm⟩
      rw [hio] at h
      cases r with
      | error e => simp at h
      | ok v =>
        have hio2 : mCompleteIo c s = (Except.ok v, cm, sm) := hio
        have hpost := mCompleteIo_ok_post c s v cm sm hio2
        simp only [Prod.mk.injEq, Except.ok.injEq] at h
        obtain ⟨-, hc, -⟩ := h
        subst hc
        exact hpost
    · rw [if_neg hw] at h
      simp only [Prod.mk.injEq, Except.ok.injEq] at h
      obtain ⟨-, hc, -⟩ := h
      subst hc
      constructor
      · simpa [mOps] using hh
      · simp [mOps] at hw
        exact hw

theorem prepareReadLoop_post (n : Nat) :
    ∀ (c : MConn) (s : MSock) (c2 : MConn) (s2 : MSock) (u : Unit),
      c.needRead ≤ n → c.handshaking = false → c.pendingTls = [] →
      prepareReadLoop c s = (Except.ok u, c2, s2) →
      c2.handshaking = false ∧ c2.pendingTls = []
        ∧ (c2.needRead = 0 ∨ s2.incoming = []) := by
  induction n with
  | zero =>
    intro c s c2 s2 u hle hh hp h
    unfold prepareReadLoop at h
    rw [if_neg (by omega)] at h
    simp only [Prod.mk.injEq, Except.ok.injEq] at h
    obtain ⟨-, hc, -⟩ := h
    subst hc
    exact ⟨hh, hp, Or.inl (by omega)⟩
  | succ n ih =>
    intro c s c2 s2 u hle hh hp h
    unfold prepareReadLoop at h
    by_cases hnr : 0 < c.needRead
    · rw [if_pos hnr] at h
      split at h
      · simp at h
      · rename_i rd wr cm sm hio
        split at h
        · rename_i hrd
          simp only [Prod.mk.injEq, Except.ok.injEq] at h
          obtain ⟨-, hc, hs⟩ := h
          subst hc
          subst hs
          have hpost := mCompleteIo_ok_post c s (rd, wr) cm sm hio
          have hstep := mCompleteIo_read_step c s rd wr cm sm hio hh hnr
          exact ⟨hpost.1, hpost.2, Or.inr (hstep.1 hrd)⟩
        · rename_i hrd
          have hpost := mCompleteIo_ok_post c s (rd, wr) cm sm hio
          have hstep := mCompleteIo_read_step c s rd wr cm sm hio hh hnr
          have hle2 : cm.needRead ≤ n := by
            rw [hstep.2 hrd]
            omega
          exact ih cm sm c2 s2 u hle2 hpost.1 hpost.2 h
    · rw [if_neg hnr] at h
      simp only [Prod.mk.injEq, Except.ok.injEq] at h
      obtain ⟨-, hc, -⟩ := h
      subst hc
      exact ⟨hh, hp, Or.inl (by omega)⟩

theorem prepare_read_post (c : MConn) (s : MSock) (u : Unit) (c2 : MConn) (s2 : MSock)
    (h : prepare_read c s = (Except.ok u, c2, s2)) :
    c2.handshaking = false ∧ c2.pendingTls = []
      ∧ (c2.needRead = 0 ∨ s2.incoming = []) := by
  unfold prepare_read at h
  rcases hp : complete_prior_io mOps c s with ⟨r1, cm, sm⟩
  rw [hp] at h
  cases r1 with
  | error e => simp at h
  | ok v =>
    have hpost := complete_prior_io_m_post c s v cm sm hp
    exact prepareReadLoop_post cm.needRead cm sm c2 s2 u (by omega) hpost.1 hpost.2 h

theorem stream_write_m_post (c : MConn) (s : MSock) (buf : List Nat) (len : Nat)
    (c2 : MConn) (s2 : MSock)
    (h : stream_write mOps c s buf = (Except.ok len, c2, s2)) :
    c2.handshaking = false := by
  unfold stream_write at h
  rcases hp : complete_prior_io mOps c s with ⟨r1, cm, sm⟩
  rw [hp] at h
  cases r1 with
  | error e => simp at h
  | ok u =>
    have hpost := complete_prior_io_m_post c s u cm sm hp
    simp only [mOps] at h
    rcases hio : mCompleteIo { cm with pendingTls := cm.pendingTls ++ buf } sm
      with ⟨r4, c4, s4⟩
    rw [hio] at h
    simp only [Prod.mk.injEq, Except.ok.injEq] at h
    obtain ⟨-, hc, -⟩ := h
    subst hc
    exact mCompleteIo_preserves_not_handshaking _ sm r4 _ s4 hio hpost.1

theorem stream_write_vectored_m_post (c : MConn) (s : MSock) (bufs : List (List Nat))
    (len : Nat) (c2 : MConn) (s2 : MSock)
    (h : stream_write_vectored mOps c s bufs = (Except.ok len, c2, s2)) :
    c2.handshaking = false := by
  unfold stream_write_vectored at h
  rcases hp : complete_prior_io mOps c s with ⟨r1, cm, sm⟩
  rw [hp] at h
  cases r1 with
  | error e => simp at h
  | ok u =>
    have hpost := complete_prior_io_m_post c s u cm sm hp
    simp only [mOps] at h
    rcases hio : mCompleteIo { cm with pendingTls := cm.pendingTls ++ bufs.flatten } sm
      with ⟨r4, c4, s4⟩
    rw [hio] at h
    simp only [Prod.mk.injEq, Except.ok.injEq] at h
    obtain ⟨-, hc, -⟩ := h
    subst hc
    exact mCompleteIo_preserves_not_handshaking _ sm r4 _ s4 hio hpost.1

theorem stream_flush_m_post (c : MConn) (s : MSock) (u : Unit) (c2 : MConn) (s2 : MSock)
    (h : stream_flush mOps c s = (Except.ok u, c2, s2)) :
    c2.handshaking = false ∧ c2.pendingTls = [] := by
  unfold stream_flush at h
  rcases hp : complete_prior_io mOps c s with ⟨r1, cm, sm⟩
  rw [hp] at h
  cases r1 with
  | error e => simp at h
  | ok u1 =>
    have hpost := complete_prior_io_m_post c s u1 cm sm hp
    simp only [mOps] at h
    rw [hpost.2] at h
    simp only [List.isEmpty_nil, Bool.not_true, Bool.false_eq_true, if_false] at h
    simp only [Prod.mk.injEq, Except.ok.injEq] at h
    obtain ⟨-, hc, -⟩ := h
    subst hc
    exact hpost

/-- C10: every public I/O operation on `Stream` first completes prior
obligations: after a successful `read`, `fill_buf`, `prepare_read`,
`write`, `write_vectored` or `flush`, the handshake I/O has been driven to
completion (the connection is no longer handshaking) and — for the
read-side operations and `flush` — all pending TLS output has been
written; moreover `prepare_read` loops `complete_io` only while
`wants_read` holds and stops at a zero-byte read, so on success either the
connection no longer wants read or the transport was at EOF — a read never
blocks forever on a closed transport. -/
theorem stream_completes_prior_obligations (c : MConn) (s : MSock) (n : Nat) :
    (∀ out c2 s2, stream_read c s n = (Except.ok out, c2, s2) →
      c2.handshaking = false ∧ c2.pendingTls = []
        ∧ (c2.needRead = 0 ∨ s2.incoming = []))
    ∧ (∀ out c2 s2, stream_fill_buf c s = (Except.ok out, c2, s2) →
      c2.handshaking = false ∧ c2.pendingTls = []
        ∧ (c2.needRead = 0 ∨ s2.incoming = []))
    ∧ (∀ u c2 s2, prepare_read c s = (Except.ok u, c2, s2) →
      c2.handshaking = false ∧ c2.pendingTls = []
        ∧ (c2.needRead = 0 ∨ s2.incoming = []))
    ∧ (∀ buf len c2 s2, stream_write mOps c s buf = (Except.ok len, c2, s2) →
      c2.handshaking = false)
    ∧ (∀ bufs len c2 s2, stream_write_vectored mOps c s bufs = (Except.ok len, c2, s2) →
      c2.handshaking = false)
    ∧ (∀ u c2 s2, stream_flush mOps c s = (Except.ok u, c2, s2) →
      c2.handshaking = false ∧ c2.pendingTls = []) := by
  refine ⟨?_, ?_, ?_, ?_, ?_, ?_⟩
  · intro out c2 s2 h
    unfold stream_read at h
    rcases hp : prepare_read c s with ⟨r1, cm, sm⟩
    rw [hp] at h
    cases r1 with
    | error e => simp at h
    | ok u =>
      have hpost := prepare_read_post c s u cm sm hp
      simp only [Prod.mk.injEq, Except.ok.injEq] at h
      obtain ⟨-, hc, hs⟩ := h
      subst hc
      subst hs
      exact ⟨hpost.1, hpost.2.1, hpost.2.2⟩
  · intro out c2 s2 h
    unfold stream_fill_buf at h
    rcases hp : prepare_read c s with ⟨r1, cm, sm⟩
    rw [hp] at h
    cases r1 with
    | error e => simp at h
    | ok u =>
      have hpost := prepare_read_post c s u cm sm hp
      simp only [Prod.mk.injEq, Except.ok.injEq] at h
      obtain ⟨-, hc, hs⟩ := h
      subst hc
      subst hs
      exact hpost
  · intro u c2 s2 h
    exact prepare_read_post c s u c2 s2 h
  · intro buf len c2 s2 h
    exact stream_write_m_post c s buf len c2 s2 h
  · intro bufs len c2 s2 h
    exact stream_write_vectored_m_post c s bufs len c2 s2 h
  · intro u c2 s2 h
    exact stream_flush_m_post c s u c2 s2 h

/-- Witness for C10: a handshaking connection (1 handshake byte needed, one
pending TLS byte, 1 byte of wanted input) over a transport holding `[9, 8]`
completes the handshake, flushes, reads the plaintext, and ends neither
handshaking nor wanting read. -/
theorem stream_completes_prior_obligations_witness :
    (⟨false, 0, [], [], 0⟩ : MConn).handshaking = false
    ∧ (⟨false, 0, [], [], 0⟩ : MConn).pendingTls = []
    ∧ ((⟨false, 0, [], [], 0⟩ : MConn).needRead = 0
        ∨ (⟨[], [5], false⟩ : MSock).incoming = []) := by
  have h := (stream_completes_prior_obligations ⟨true, 1, [5], [], 1⟩ ⟨[9, 8], [], false⟩ 1).1
  exact h [8] ⟨false, 0, [], [], 0⟩ ⟨[], [5], false⟩ (by
    simp [stream_read, prepare_read, complete_prior_io, complete_write_pending, mOps,
      mCompleteIo, prepareReadLoop])

/-- C9: `Stream::write` and `Stream::write_vectored` never let a transport
error mask consumed plaintext: whenever prior I/O succeeded and the
connection's writer accepted `len` bytes, the call returns `Ok len` no
matter what the final transport-flush attempt does (its result is
discarded) — proved for arbitrary connection operations; and, in the
concrete model, a write over a broken transport still returns the
consumed length while the deferred transport error surfaces on the next
`flush` call. -/
theorem stream_write_never_masks_transport_errors {C S : Type} (ops : StreamOps C S)
    (c : C) (s : S) (buf : List Nat) (bufs : List (List Nat)) (c1 : C) (s1 : S)
    (len lenv : Nat) (c2 c2v : C)
    (hprior : complete_prior_io ops c s = (Except.ok (), c1, s1))
    (hw : ops.writer_write c1 buf = (Except.ok len, c2))
    (hwv : ops.writer_write_vectored c1 bufs = (Except.ok lenv, c2v)) :
    (stream_write ops c s buf).1 = Except.ok len
    ∧ (stream_write_vectored ops c s bufs).1 = Except.ok lenv
    ∧ (∀ (mc : MConn) (ms : MSock) (mbuf : List Nat),
        mc.handshaking = false → mc.pendingTls = [] → ms.broken = true → mbuf ≠ [] →
        (stream_write mOps mc ms mbuf).1 = Except.ok mbuf.length
        ∧ (stream_flush mOps (stream_write mOps mc ms mbuf).2.1
            (stream_write mOps mc ms mbuf).2.2).1 = Except.error "broken pipe") := by
  refine ⟨?_, ?_, ?_⟩
  · unfold stream_write
    rw [hprior]
    simp only [hw]
  · unfold stream_write_vectored
    rw [hprior]
    simp only [hwv]
  · intro mc ms mbuf h1 h2 h3 h4
    obtain ⟨mch, mchn, mcp, mcpl, mcn⟩ := mc
    obtain ⟨msi, msa, msb⟩ := ms
    simp only at h1 h2 h3
    subst h1
    subst h2
    subst h3
    cases mbuf with
    | nil => exact absurd rfl h4
    | cons b bs =>
      constructor
      · simp [stream_write, complete_prior_io, complete_write_pending, mOps, mCompleteIo]
      · simp [stream_write, stream_flush, complete_prior_io, complete_write_pending, mOps,
          mCompleteIo]

/-- Witness for C9 at a concrete state: an idle connection over a working
transport accepts a 1-byte write, and over a broken transport the write
still reports 1 byte consumed while the following flush fails. -/
theorem stream_write_never_masks_transport_errors_witness :
    (stream_write mOps ⟨false, 0, [], [], 0⟩ ⟨[], [], false⟩ [1]).1 = Except.ok 1
    ∧ (stream_write mOps ⟨false, 0, [], [], 0⟩ ⟨[], [], true⟩ [1]).1 = Except.ok 1 := by
  have h := stream_write_never_masks_transport_errors mOps
    ⟨false, 0, [], [], 0⟩ (⟨[], [], false⟩ : MSock) [1] [[2]]
    ⟨false, 0, [], [], 0⟩ ⟨[], [], false⟩ 1 1
    ⟨false, 0, [1], [], 0⟩ ⟨false, 0, [2], [], 0⟩ rfl rfl rfl
  refine ⟨h.1, ?_⟩
  exact (h.2.2 ⟨false, 0, [], [], 0⟩ ⟨[], [], true⟩ [1] rfl rfl rfl (by simp)).1
